import Mathlib

/-!
Verification development for the pytorch-lookahead-optimizer repository.

The repository consists of a CIFAR-10 training script (experiments.py,
present in the sources) built on an optimizer module (optim.py, providing
AdamW and LookaheadOptimizer) and an instrumentation module (engine.py,
providing every_n, log_iterations_per_second, step_lr_scheduler).  The two
latter modules are imported by experiments.py but their code is not among
the available sources, so the corresponding definitions below are modelled
from the specification and are marked as such in their doc comments.
Numeric values are modelled as exact rationals; a tensor acts elementwise,
so one rational models one element of a tracked parameter.
-/

/-! ### Decoupled-weight-decay optimizer (AdamW) -/

/-- Modelled from the spec: the immutable hyperparameter record of the
AdamW optimizer defined in optim.py, which is not among the sources.
Fields: learning rate, moment decay coefficients, numerical-stability
epsilon, weight-decay coefficient. -/
structure AdamWConfig where
  lr : ℚ
  beta1 : ℚ
  beta2 : ℚ
  eps : ℚ
  weight_decay : ℚ
  deriving DecidableEq

/-- Modelled from the spec: the per-parameter optimizer state of AdamW
(optim.py is not among the sources): current parameter value, first and
second moment estimates, and the per-parameter step count. -/
structure AdamWParamState where
  param : ℚ
  exp_avg : ℚ
  exp_avg_sq : ℚ
  step_count : ℕ
  deriving DecidableEq

/-- Modelled from the spec: one AdamW step on one tracked parameter
(optim.py is not among the sources).  The elementwise square root is a
tensor-library primitive, not code of this repository, so it is passed in
as the function `sqrtFn`.  The step increments the step count, updates the
two moment estimates, bias-corrects them with the new step count, and
applies the fused update in which the weight-decay term is scaled only by
the learning rate, not by the adaptive denominator. -/
def adamwStepParam (sqrtFn : ℚ → ℚ) (cfg : AdamWConfig) (grad : ℚ)
    (s : AdamWParamState) : AdamWParamState :=
  let step1 := s.step_count + 1
  let m1 := cfg.beta1 * s.exp_avg + (1 - cfg.beta1) * grad
  let v1 := cfg.beta2 * s.exp_avg_sq + (1 - cfg.beta2) * grad ^ 2
  let mhat := m1 / (1 - cfg.beta1 ^ step1)
  let vhat := v1 / (1 - cfg.beta2 ^ step1)
  let update := cfg.lr * mhat / (sqrtFn vhat + cfg.eps)
  { param := s.param - update - cfg.lr * cfg.weight_decay * s.param
    exp_avg := m1
    exp_avg_sq := v1
    step_count := step1 }

/-- Modelled from the spec: one AdamW step over the whole list of tracked
parameters, applying the per-parameter step elementwise. -/
def adamwStep (sqrtFn : ℚ → ℚ) (cfg : AdamWConfig) (grads : List ℚ)
    (states : List AdamWParamState) : List AdamWParamState :=
  List.zipWith (adamwStepParam sqrtFn cfg) grads states

/-- Modelled from the spec: the standard adaptive-moment (Adam) update,
stated from the words of the spec for comparison with the decoupled
update; it is the same moment-based step with no weight-decay term. -/
def adamStepParam (sqrtFn : ℚ → ℚ) (lr beta1 beta2 eps : ℚ) (grad : ℚ)
    (s : AdamWParamState) : AdamWParamState :=
  let step1 := s.step_count + 1
  let m1 := beta1 * s.exp_avg + (1 - beta1) * grad
  let v1 := beta2 * s.exp_avg_sq + (1 - beta2) * grad ^ 2
  let mhat := m1 / (1 - beta1 ^ step1)
  let vhat := v1 / (1 - beta2 ^ step1)
  { param := s.param - lr * mhat / (sqrtFn vhat + eps)
    exp_avg := m1
    exp_avg_sq := v1
    step_count := step1 }

/-! ### Lookahead optimizer wrapper -/

/-- Modelled from the spec: the state owned by the LookaheadOptimizer
wrapper of optim.py, which is not among the sources.  `fast` holds the
tracked parameters as advanced by the base optimizer, `slow` the slow
weights, `count` the shared `local_step_count`. -/
structure LookState where
  fast : List ℚ
  slow : List ℚ
  count : ℕ
  deriving DecidableEq

/-- Modelled from the spec: one call to the step operation of the
Lookahead wrapper, with a base optimizer whose step may fail.  The call
first delegates to the base step; a base failure is propagated and the
Lookahead state is handed back untouched.  On success `local_step_count`
is incremented, and when it is divisible by `lookahead_steps` every slow
weight is interpolated toward the fast parameter and the fast parameter
is reset to the new slow weight. -/
def lookaheadStepE {E : Type} (lookahead_steps : ℕ) (slow_update_rate : ℚ)
    (base : List ℚ → Except E (List ℚ)) (s : LookState) :
    Except E Unit × LookState :=
  match base s.fast with
  | Except.error e => (Except.error e, s)
  | Except.ok fast1 =>
      let count1 := s.count + 1
      if count1 % lookahead_steps = 0 then
        let slow1 := List.zipWith
          (fun sl p => sl + slow_update_rate * (p - sl)) s.slow fast1
        (Except.ok (), ⟨slow1, slow1, count1⟩)
      else
        (Except.ok (), ⟨fast1, s.slow, count1⟩)

/-- Modelled from the spec: the Lookahead step with a base optimizer whose
step always succeeds, obtained from the failing version by lifting the
base step into the success case. -/
def lookaheadStep (lookahead_steps : ℕ) (slow_update_rate : ℚ)
    (base : List ℚ → List ℚ) (s : LookState) : LookState :=
  (lookaheadStepE (E := Unit) lookahead_steps slow_update_rate
    (fun f => Except.ok (base f)) s).2

/-! ### Construction-time validation and gradient checks -/

/-- Modelled from the spec: the single fatal error of the error-handling
design; raised for out-of-domain hyperparameters at construction time and
for a step requested on a parameter lacking a populated gradient. -/
inductive OptError where
  | invalidState
  deriving DecidableEq

/-- Modelled from the spec: validated construction of the Lookahead
optimizer (optim.py is not among the sources).  The learning rate is
forwarded to the base optimizer; construction fails with InvalidState,
returning no partial optimizer, when the learning rate is nonpositive,
`lookahead_steps` is nonpositive, or `slow_update_rate` lies outside the
half-open interval (0,1]. -/
def mkLookaheadOptimizer (lr : ℚ) (slow_update_rate : ℚ)
    (lookahead_steps : ℤ) : Except OptError (ℚ × ℚ × ℤ) :=
  if lr ≤ 0 ∨ lookahead_steps ≤ 0 ∨ slow_update_rate ≤ 0 ∨
      1 < slow_update_rate then
    Except.error OptError.invalidState
  else
    Except.ok (lr, slow_update_rate, lookahead_steps)

/-- Modelled from the spec: a step requested on one tracked parameter
whose gradient may be unpopulated.  When the parameter requires an update
and has no gradient the step fails with InvalidState; otherwise the AdamW
per-parameter step is applied. -/
def stepParamChecked (sqrtFn : ℚ → ℚ) (cfg : AdamWConfig)
    (requiresUpdate : Bool) (grad : Option ℚ) (s : AdamWParamState) :
    Except OptError AdamWParamState :=
  if requiresUpdate then
    match grad with
    | none => Except.error OptError.invalidState
    | some g => Except.ok (adamwStepParam sqrtFn cfg g s)
  else
    Except.ok s

/-! ### Instrumentation: every-N gate and throughput metric -/

/-- Modelled from the spec: the every-N gate of engine.py (not among the
sources), used in experiments.py as the decorator with n = 50 on
log_training_progress.  It is a pure function of the event counter and
the period: it triggers exactly when the counter is divisible by the
period. -/
def everyN (n : ℕ) (counter : ℕ) : Bool := counter % n == 0

/-- Modelled from the spec: the rolling state of the throughput metric of
engine.py (not among the sources): the timestamp and iteration count
recorded at the previous invocation, absent before the first
invocation. -/
structure ThroughputState where
  last : Option (ℚ × ℕ)
  deriving DecidableEq

/-- Modelled from the spec: one invocation of the throughput metric with
the current monotonic timestamp and iteration count.  The first
invocation records the timestamp and emits no numeric value; every later
invocation emits the iteration delta divided by the elapsed time and
records the new timestamp. -/
def logIterationsPerSecond (now : ℚ) (iteration : ℕ)
    (s : ThroughputState) : ThroughputState × Option ℚ :=
  match s.last with
  | none => (⟨some (now, iteration)⟩, none)
  | some (t0, i0) =>
      (⟨some (now, iteration)⟩,
       some (((iteration : ℚ) - (i0 : ℚ)) / (now - t0)))

/-! ### Embedding of experiments.py -/

/-- The module-level MIXED_PRECISION flag as established by the import
probe at the top of experiments.py: true exactly when the apex import
succeeded. -/
def moduleMixedPrecision (apexImportOk : Bool) : Bool := apexImportOk

/-- The value of the module-level MIXED_PRECISION switch after the
prelude of train_cifar10 in experiments.py: when apex_opt_level is None
the switch is assigned False before training starts; otherwise it keeps
the import-probe value. -/
def trainMixedPrecision (apexImportOk : Bool)
    (apexOptLevel : Option String) : Bool :=
  match apexOptLevel with
  | none => false
  | some _ => moduleMixedPrecision apexImportOk

/-- The externally visible operations of one call of the per-batch update
function built by create_supervised_trainer in experiments.py. -/
inductive TrainEvent where
  | zeroGrad
  | forward
  | scaleLoss
  | backward
  | optStep
  deriving DecidableEq

/-- The sequence of operations performed by one call of the per-batch
update function in experiments.py: clear the gradients, run the forward
pass, run exactly one backward pass through either the loss-scaling
branch or the plain branch depending on the MIXED_PRECISION switch, then
take one optimizer step. -/
def updateTrace (mixedPrecision : Bool) : List TrainEvent :=
  [TrainEvent.zeroGrad, TrainEvent.forward] ++
    (if mixedPrecision then [TrainEvent.scaleLoss, TrainEvent.backward]
     else [TrainEvent.backward]) ++
  [TrainEvent.optStep]

theorem lookaheadStep_def (k : ℕ) (a : ℚ) (base : List ℚ → List ℚ)
    (s : LookState) :
    lookaheadStep k a base s =
      if (s.count + 1) % k = 0 then
        ⟨List.zipWith (fun sl p => sl + a * (p - sl)) s.slow (base s.fast),
         List.zipWith (fun sl p => sl + a * (p - sl)) s.slow (base s.fast),
         s.count + 1⟩
      else ⟨base s.fast, s.slow, s.count + 1⟩ := by
  unfold lookaheadStep lookaheadStepE
  by_cases h : (s.count + 1) % k = 0 <;> simp [h]

theorem lookaheadStep_count (k : ℕ) (a : ℚ) (base : List ℚ → List ℚ)
    (s : LookState) : (lookaheadStep k a base s).count = s.count + 1 := by
  rw [lookaheadStep_def]
  by_cases h : (s.count + 1) % k = 0 <;> simp [h]

theorem lookaheadStep_iterate_count (k : ℕ) (a : ℚ)
    (base : List ℚ → List ℚ) (s : LookState) (n : ℕ) :
    ((lookaheadStep k a base)^[n] s).count = s.count + n := by
  induction n generalizing s with
  | zero => simp
  | succ n ih =>
    rw [Function.iterate_succ_apply, ih, lookaheadStep_count]
    omega

theorem lookaheadStep_sync (k : ℕ) (a : ℚ) (base : List ℚ → List ℚ)
    (s : LookState) (h : (s.count + 1) % k = 0) :
    (lookaheadStep k a base s).slow =
      List.zipWith (fun sl p => sl + a * (p - sl)) s.slow (base s.fast) ∧
    (lookaheadStep k a base s).fast = (lookaheadStep k a base s).slow := by
  rw [lookaheadStep_def]
  simp [h]

theorem zipWith_getElem?_eq {α β γ : Type} (f : α → β → γ) (as : List α)
    (bs : List β) (i : ℕ) (a : α) (b : β) (ha : i < as.length)
    (hb : i < bs.length) :
    (List.zipWith f as bs)[i]? = some (f (as.getD i a) (bs.getD i b)) := by
  induction as generalizing bs i with
  | nil => simp at ha
  | cons x xs ih =>
    cases bs with
    | nil => simp at hb
    | cons y ys =>
      cases i with
      | zero => simp [List.getD]
      | succ j =>
        simp only [List.zipWith_cons_cons, List.getElem?_cons_succ, List.getD]
        simpa [List.getD] using
          ih ys j (by simpa using ha) (by simpa using hb)

/-- C1: every AdamW step on every tracked parameter increments the step
count, updates the first and second moment estimates by the exponential
decay rule, bias-corrects both with the new step count, and applies the
fused parameter update in which the weight-decay term is scaled only by
the learning rate and not divided by the adaptive denominator. -/
theorem adamw_step_spec (sqrtFn : ℚ → ℚ) (cfg : AdamWConfig) :
    (∀ (grad : ℚ) (s : AdamWParamState),
      (adamwStepParam sqrtFn cfg grad s).step_count = s.step_count + 1 ∧
      (adamwStepParam sqrtFn cfg grad s).exp_avg =
        cfg.beta1 * s.exp_avg + (1 - cfg.beta1) * grad ∧
      (adamwStepParam sqrtFn cfg grad s).exp_avg_sq =
        cfg.beta2 * s.exp_avg_sq + (1 - cfg.beta2) * grad ^ 2 ∧
      (adamwStepParam sqrtFn cfg grad s).param =
        s.param -
          cfg.lr * ((cfg.beta1 * s.exp_avg + (1 - cfg.beta1) * grad) /
              (1 - cfg.beta1 ^ (s.step_count + 1))) /
            (sqrtFn ((cfg.beta2 * s.exp_avg_sq + (1 - cfg.beta2) * grad ^ 2) /
              (1 - cfg.beta2 ^ (s.step_count + 1))) + cfg.eps) -
          cfg.lr * cfg.weight_decay * s.param) ∧
    (∀ (grads : List ℚ) (states : List AdamWParamState) (i : ℕ),
      i < grads.length → i < states.length →
      (adamwStep sqrtFn cfg grads states)[i]? =
        some (adamwStepParam sqrtFn cfg (grads.getD i 0)
          (states.getD i ⟨0, 0, 0, 0⟩))) := by
  refine ⟨fun grad s => ⟨rfl, rfl, rfl, rfl⟩, fun grads states i hg hs => ?_⟩
  exact zipWith_getElem?_eq _ grads states i 0 ⟨0, 0, 0, 0⟩ hg hs

theorem adamw_step_spec_witness :
    0 < ([(1 : ℚ)]).length ∧
    0 < ([(⟨0, 0, 0, 0⟩ : AdamWParamState)]).length ∧
    (adamwStep (fun x => x) ⟨1, 0, 0, 0, 1⟩ [1] [⟨0, 0, 0, 0⟩])[0]? =
      some (adamwStepParam (fun x => x) ⟨1, 0, 0, 0, 1⟩
        (([(1 : ℚ)]).getD 0 0)
        (([(⟨0, 0, 0, 0⟩ : AdamWParamState)]).getD 0 ⟨0, 0, 0, 0⟩)) :=
  ⟨by decide, by decide,
   (adamw_step_spec (fun x => x) ⟨1, 0, 0, 0, 1⟩).2 [1] [⟨0, 0, 0, 0⟩] 0
     (by decide) (by decide)⟩

/-- C5: with a weight-decay coefficient of zero, the AdamW step is
identical to the standard adaptive-moment (Adam) step with the same
learning rate, moment decay coefficients, and epsilon, for every
gradient and every per-parameter state. -/
theorem adamw_zero_decay_is_adam (sqrtFn : ℚ → ℚ) (lr beta1 beta2 eps : ℚ)
    (grad : ℚ) (s : AdamWParamState) :
    adamwStepParam sqrtFn ⟨lr, beta1, beta2, eps, 0⟩ grad s =
      adamStepParam sqrtFn lr beta1 beta2 eps grad s := by
  simp [adamwStepParam, adamStepParam]

/-- C2: on every synchronization point of the Lookahead step (the shared
counter becomes divisible by the period right after its increment), the
slow weights are interpolated toward the fast parameters with rate α and
the fast parameters are reset to the new slow weights; consequently after
exactly `lookahead_steps` failure-free step calls from a fresh counter the
slow weights equal the fast parameters. -/
theorem lookahead_sync_invariant (k : ℕ) (a : ℚ) (base : List ℚ → List ℚ)
    (hk : 0 < k) :
    (∀ s : LookState, (s.count + 1) % k = 0 →
      (lookaheadStep k a base s).slow =
        List.zipWith (fun sl p => sl + a * (p - sl)) s.slow (base s.fast) ∧
      (lookaheadStep k a base s).fast = (lookaheadStep k a base s).slow) ∧
    (∀ s : LookState, s.count = 0 →
      ((lookaheadStep k a base)^[k] s).slow =
        ((lookaheadStep k a base)^[k] s).fast) := by
  refine ⟨fun s h => lookaheadStep_sync k a base s h, fun s h0 => ?_⟩
  obtain ⟨n, rfl⟩ : ∃ n, k = n + 1 := ⟨k - 1, by omega⟩
  rw [Function.iterate_succ_apply']
  have hc :
      (((lookaheadStep (n + 1) a base)^[n] s).count + 1) % (n + 1) = 0 := by
    rw [lookaheadStep_iterate_count, h0]
    simp
  exact ((lookaheadStep_sync _ a base _ hc).2).symm

theorem lookahead_sync_invariant_witness :
    0 < 2 ∧ (⟨[0], [0], 0⟩ : LookState).count = 0 ∧
    ((lookaheadStep 2 (1/2) (List.map (fun x => x + 1)))^[2]
        ⟨[0], [0], 0⟩).slow =
      ((lookaheadStep 2 (1/2) (List.map (fun x => x + 1)))^[2]
        ⟨[0], [0], 0⟩).fast :=
  ⟨by decide, rfl,
   (lookahead_sync_invariant 2 (1/2) (List.map (fun x => x + 1))
     (by decide)).2 ⟨[0], [0], 0⟩ rfl⟩

/-- C3: on every Lookahead step call that is not a synchronization point,
the slow weights are left unchanged and the fast parameters are exactly
what the delegated base-optimizer step produced. -/
theorem lookahead_no_sync_frame (k : ℕ) (a : ℚ) (base : List ℚ → List ℚ)
    (s : LookState) (h : (s.count + 1) % k ≠ 0) :
    (lookaheadStep k a base s).slow = s.slow ∧
    (lookaheadStep k a base s).fast = base s.fast ∧
    (lookaheadStep k a base s).count = s.count + 1 := by
  rw [lookaheadStep_def]
  simp [h]

theorem lookahead_no_sync_frame_witness :
    ((⟨[0], [0], 0⟩ : LookState).count + 1) % 2 ≠ 0 ∧
    ((lookaheadStep 2 (1/2) (List.map (fun x => x + 1))
        ⟨[0], [0], 0⟩).slow = (⟨[0], [0], 0⟩ : LookState).slow ∧
     (lookaheadStep 2 (1/2) (List.map (fun x => x + 1))
        ⟨[0], [0], 0⟩).fast =
       List.map (fun x => x + 1) (⟨[0], [0], 0⟩ : LookState).fast ∧
     (lookaheadStep 2 (1/2) (List.map (fun x => x + 1))
        ⟨[0], [0], 0⟩).count = (⟨[0], [0], 0⟩ : LookState).count + 1) :=
  ⟨by decide,
   lookahead_no_sync_frame 2 (1/2) (List.map (fun x => x + 1))
     ⟨[0], [0], 0⟩ (by decide)⟩

/-- C4: when the step of the wrapped base optimizer fails, the Lookahead
step returns that same failure and its own state, in particular every
slow weight and the shared counter, is exactly as before the call: the
step fails atomically with no partial synchronization. -/
theorem lookahead_base_failure_atomic {E : Type} (k : ℕ) (a : ℚ)
    (base : List ℚ → Except E (List ℚ)) (s : LookState) (e : E)
    (h : base s.fast = Except.error e) :
    (lookaheadStepE k a base s).1 = Except.error e ∧
    (lookaheadStepE k a base s).2.slow = s.slow ∧
    (lookaheadStepE k a base s).2.count = s.count ∧
    (lookaheadStepE k a base s).2 = s := by
  unfold lookaheadStepE
  rw [h]
  exact ⟨rfl, rfl, rfl, rfl⟩

theorem lookahead_base_failure_atomic_witness :
    ((fun _ : List ℚ => (Except.error "boom" : Except String (List ℚ)))
        (⟨[1], [2], 3⟩ : LookState).fast = Except.error "boom") ∧
    (lookaheadStepE 5 (1/2)
        (fun _ : List ℚ => (Except.error "boom" : Except String (List ℚ)))
        ⟨[1], [2], 3⟩).2 = (⟨[1], [2], 3⟩ : LookState) :=
  ⟨rfl,
   (lookahead_base_failure_atomic 5 (1/2)
     (fun _ : List ℚ => (Except.error "boom" : Except String (List ℚ)))
     ⟨[1], [2], 3⟩ "boom" rfl).2.2.2⟩

/-- C6: the every-N gate triggers exactly when the event counter is
divisible by the period: for N = 50 it triggers at every multiple of 50
and at no counter strictly between consecutive multiples, and for N = 1
it triggers on every call; it is a pure function of the counter. -/
theorem every_n_gate (n counter m c : ℕ) :
    (everyN n counter = true ↔ counter % n = 0) ∧
    everyN 50 (50 * m) = true ∧
    (50 * m < c → c < 50 * (m + 1) → everyN 50 c = false) ∧
    everyN 1 counter = true := by
  refine ⟨by simp [everyN], by simp [everyN, Nat.mul_mod_right], ?_,
    by simp [everyN, Nat.mod_one]⟩
  intro h1 h2
  have hne : c % 50 ≠ 0 := by
    intro hmod
    obtain ⟨q, rfl⟩ := Nat.dvd_of_mod_eq_zero hmod
    omega
  simp [everyN, hne]

theorem every_n_gate_witness :
    50 * 1 < 75 ∧ 75 < 50 * (1 + 1) ∧ everyN 50 75 = false :=
  ⟨by decide, by decide,
   (every_n_gate 50 0 1 75).2.2.1 (by decide) (by decide)⟩

/-- C7: the first invocation of the throughput metric, with no prior
timestamp, records the current timestamp and emits no numeric value;
every later invocation emits the iteration delta divided by the elapsed
time, whose denominator is nonzero whenever time advanced, and a
one-second gap with a 100-iteration delta yields exactly 100. -/
theorem throughput_metric (now t0 : ℚ) (iteration i0 : ℕ) :
    logIterationsPerSecond now iteration ⟨none⟩ =
      (⟨some (now, iteration)⟩, none) ∧
    (t0 < now →
      now - t0 ≠ 0 ∧
      logIterationsPerSecond now iteration ⟨some (t0, i0)⟩ =
        (⟨some (now, iteration)⟩,
         some (((iteration : ℚ) - (i0 : ℚ)) / (now - t0)))) ∧
    logIterationsPerSecond 1 100 ⟨some (0, 0)⟩ =
      (⟨some (1, 100)⟩, some 100) := by
  refine ⟨rfl, fun h => ⟨sub_ne_zero.mpr (ne_of_gt h), rfl⟩, ?_⟩
  norm_num [logIterationsPerSecond]

theorem throughput_metric_witness :
    (0 : ℚ) < 1 ∧
    ((1 : ℚ) - 0 ≠ 0 ∧
     logIterationsPerSecond 1 100 ⟨some (0, 0)⟩ =
       (⟨some (1, 100)⟩,
        some ((((100 : ℕ) : ℚ) - ((0 : ℕ) : ℚ)) / ((1 : ℚ) - 0)))) :=
  ⟨by norm_num, (throughput_metric 1 0 100 0).2.1 (by norm_num)⟩

/-- C8: optimizer construction fails with InvalidState, returning no
partial optimizer, exactly when a hyperparameter is out of domain (the
learning rate is nonpositive, the lookahead period is nonpositive, or the
slow update rate lies outside (0,1]); a successful construction certifies
all hyperparameters in domain; and a step requested for a parameter that
requires an update but has no populated gradient fails with
InvalidState. -/
theorem construction_validation (lr a : ℚ) (k : ℤ) :
    ((lr ≤ 0 ∨ k ≤ 0 ∨ a ≤ 0 ∨ 1 < a) ↔
      mkLookaheadOptimizer lr a k = Except.error OptError.invalidState) ∧
    (∀ out, mkLookaheadOptimizer lr a k = Except.ok out →
      0 < lr ∧ 0 < k ∧ 0 < a ∧ a ≤ 1) ∧
    (∀ (sqrtFn : ℚ → ℚ) (cfg : AdamWConfig) (s : AdamWParamState),
      stepParamChecked sqrtFn cfg true none s =
        Except.error OptError.invalidState) := by
  refine ⟨?_, ?_, fun sqrtFn cfg s => rfl⟩
  · unfold mkLookaheadOptimizer
    by_cases h : lr ≤ 0 ∨ k ≤ 0 ∨ a ≤ 0 ∨ 1 < a <;> simp [h]
  · intro out hout
    unfold mkLookaheadOptimizer at hout
    by_cases h : lr ≤ 0 ∨ k ≤ 0 ∨ a ≤ 0 ∨ 1 < a
    · simp [h] at hout
    · push_neg at h
      exact h

/-- C9: when train_cifar10 is called with no explicit precision level,
the module-level mixed-precision switch is set to False before training
starts, regardless of whether the apex import succeeded, so the per-batch
update takes the plain (non-mixed-precision) backward branch and never
enters the loss-scaling branch. -/
theorem mixed_precision_disabled_without_opt_level (apexImportOk : Bool) :
    trainMixedPrecision apexImportOk none = false ∧
    updateTrace (trainMixedPrecision apexImportOk none) =
      [TrainEvent.zeroGrad, TrainEvent.forward, TrainEvent.backward,
       TrainEvent.optStep] ∧
    TrainEvent.scaleLoss ∉ updateTrace (trainMixedPrecision apexImportOk none) := by
  have h : trainMixedPrecision apexImportOk none = false := rfl
  refine ⟨h, by rw [h]; rfl, by rw [h]; decide⟩

/-- C10: every invocation of the per-batch update function performs
exactly one zero-gradient call, exactly one backward pass, and exactly
one optimizer step, in that order, in both the mixed-precision and the
plain branch. -/
theorem update_trace_once_in_order (mp : Bool) :
    (updateTrace mp).count TrainEvent.zeroGrad = 1 ∧
    (updateTrace mp).count TrainEvent.backward = 1 ∧
    (updateTrace mp).count TrainEvent.optStep = 1 ∧
    (updateTrace mp).indexOf TrainEvent.zeroGrad <
      (updateTrace mp).indexOf TrainEvent.backward ∧
    (updateTrace mp).indexOf TrainEvent.backward <
      (updateTrace mp).indexOf TrainEvent.optStep := by
  cases mp <;> decide

theorem construction_validation_witness :
    ((-1 : ℚ) ≤ 0 ∨ (5 : ℤ) ≤ 0 ∨ (1/2 : ℚ) ≤ 0 ∨ 1 < (1/2 : ℚ)) ∧
    mkLookaheadOptimizer (-1) (1/2) 5 = Except.error OptError.invalidState :=
  ⟨Or.inl (by norm_num),
   (construction_validation (-1) (1/2) 5).1.mp (Or.inl (by norm_num))⟩
